import Mathlib

/-!
# Verification development for the runtime.js kernel core

Shallow embedding of

* `src/kernel/engines.h` (the `Engines` registry: construction, `Startup`,
  `TimerTick`, `NonIsolateTick`, `NonIsolateSleep`, the engine queries),
* `src/kernel/thread-manager.cc` (`ThreadManager::ThreadManager`, `Preempt`),
* `src/kernel/multiboot.cc` (`MultibootMemoryMapEnumerator`).

Conventions.  A failed `RT_ASSERT`, `abort()` and `FatalError` are fatal and
are modelled by `Except`; the assertion is identified by the number of its
source line.  Pointers into a container owned by the modelled object are the
index of the pointee in that container.  Machine integers are natural numbers
with an explicit reduction modulo the word size where the source can wrap.
-/

namespace rt

/-! ## Fatal outcomes -/

/-- Ways in which the kernel stops for good. -/
inductive Fatal where
  /-- A failed `RT_ASSERT`, tagged with the line of the assertion. -/
  | assertion (line : Nat)
  /-- A call of `abort()`. -/
  | abort
  /-- A call of `GLOBAL_boot_services()->FatalError`. -/
  | fatalError
  deriving DecidableEq, Repr

/-- One byte of memory or of a payload. -/
abbrev Byte := Fin 256

/-- Value of `GLOBAL_engines()` relative to the registry a method runs on. -/
inductive GlobalEngines where
  /-- The global pointer is `nullptr`. -/
  | null
  /-- The global pointer is the registry itself (`this`). -/
  | self
  /-- The global pointer is some other registry. -/
  | other
  deriving DecidableEq, Repr

/-! ## Threads of an engine, messages, processes -/

/-- The enumeration `EngineType` of `kernel/engine.h`. -/
inductive EngineType where
  | SERVICE
  | EXECUTION
  deriving DecidableEq, Repr

/-- Target of a non-empty `ResourceHandle<EngineThread>`: the engine that owns
the thread and the position of the thread in that engine's thread set. -/
structure ThreadRef where
  engine : Nat
  index : Nat
  deriving DecidableEq, Repr

/-- The enumeration `ThreadMessage::Type`.  Only `EVALUATE` is named by the
sources at hand; `OTHER` stands for the remaining enumerators. -/
inductive ThreadMessageType where
  | EVALUATE
  | OTHER (code : Nat)
  deriving DecidableEq, Repr

/-- Modelled from the spec: `TransportData` (kernel/transport.h is absent), the
byte-serialized payload blob of a message; `STRING` is what `SetString` leaves. -/
inductive TransportData where
  | EMPTY
  | STRING (bytes : List Byte)
  deriving DecidableEq, Repr

/-- Modelled from the spec: `TransportData::SetString (data, size)` stores the
first `size` bytes found at `data`. -/
def TransportData.SetString (_self : TransportData) (data : List Byte) (size : Nat) :
    TransportData :=
  .STRING (data.take size)

/-- Modelled from the spec: `ThreadMessage` (declaration absent): a type, an
optional reply-target handle (`none` is the empty handle) and a payload. -/
structure ThreadMessage where
  type : ThreadMessageType
  sender : Option ThreadRef
  data : TransportData
  deriving DecidableEq, Repr

/-- Modelled from the spec: `EngineThread` (kernel/engine.h is absent); the part
the registry touches is the FIFO mailbox. -/
structure EngineThread where
  mailbox : List ThreadMessage
  deriving DecidableEq, Repr

/-- Modelled from the spec: `EngineThread::PushMessage` appends to the mailbox. -/
def EngineThread.PushMessage (t : EngineThread) (msg : ThreadMessage) : EngineThread :=
  { t with mailbox := t.mailbox ++ [msg] }

/-- Modelled from the spec: the thread set returned by `Engine::threads()`
(kernel/engine.h is absent), in creation order. -/
structure EngineThreads where
  threads : List EngineThread
  deriving DecidableEq, Repr

/-- Modelled from the spec: `Create()` on an engine's thread set appends a new
thread with an empty mailbox and returns its position. -/
def EngineThreads.Create (ts : EngineThreads) : EngineThreads × Nat :=
  ({ threads := ts.threads ++ [{ mailbox := [] }] }, ts.threads.length)

/-- Modelled from the spec: `Engine` (kernel/engine.h is absent): role fixed at
construction, `is_init` flag, and the engine's thread set. -/
structure Engine where
  type : EngineType
  is_init : Bool
  threads : EngineThreads
  deriving DecidableEq, Repr

/-- Modelled from the spec: the constructor `Engine(EngineType)`: the given role,
not yet initialized, no threads. -/
def Engine.new (type : EngineType) : Engine :=
  { type := type, is_init := false, threads := { threads := [] } }

/-- Modelled from the spec: `Process` (kernel/process.h is absent): the mapping
from slot index to thread handle, as an association list. -/
structure Process where
  threads : List (Nat × ThreadRef)
  deriving DecidableEq, Repr

/-- Modelled from the spec: `Process::SetThread (handle, slot)` binds the slot. -/
def Process.SetThread (p : Process) (h : ThreadRef) (slot : Nat) : Process :=
  { threads := (slot, h) :: p.threads.filter (fun b => b.1 != slot) }

/-- Modelled from the spec: the handle bound at a slot of a process. -/
def Process.GetThread (p : Process) (slot : Nat) : Option ThreadRef :=
  (p.threads.find? (fun b => b.1 == slot)).map Prod.snd

/-- Modelled from the spec: `ProcessManager` (kernel/process.h is absent): the
processes created so far, in creation order. -/
structure ProcessManager where
  processes : List Process
  deriving DecidableEq, Repr

/-- Modelled from the spec: `ProcessManager::CreateProcess` adds a process with no
bound thread and returns a handle to it (its position). -/
def ProcessManager.CreateProcess (pm : ProcessManager) : ProcessManager × Nat :=
  ({ processes := pm.processes ++ [{ threads := [] }] }, pm.processes.length)

/-! ## The registry `Engines` (engines.h) -/

/-- The data members of `class Engines`.  `engines_execution_` holds pointers to
engines that `engines_` holds too: a pointer is the index of the engine in
`engines_`. -/
structure Engines where
  cpu_count_ : Nat
  engines_ : List Engine
  engines_execution_ : List Nat
  _non_isolate_ticks : Nat
  proc_mgr_ : ProcessManager
  deriving DecidableEq, Repr

/-- Body of the loop of the constructor (engines.h:45-56) for core `i`, on the
pair `(engines_, engines_execution_)`. -/
def Engines.ctorStep (acc : List Engine × List Nat) (i : Nat) : List Engine × List Nat :=
  if 0 = i then
    (acc.1 ++ [Engine.new .SERVICE], acc.2)
  else
    let engine := Engine.new .EXECUTION
    -- engine->threads().Create(): create idle thread
    let engine := { engine with threads := engine.threads.Create.1 }
    (acc.1 ++ [engine], acc.2 ++ [acc.1.length])

/-- The constructor `Engines::Engines (cpu_count)` (engines.h:31-66); `g` is the
value of `GLOBAL_engines()` when it runs.  The V8 initialisation that ends the
constructor touches no member and is left out. -/
def Engines.new (g : GlobalEngines) (cpu_count : Nat) : Except Fatal Engines :=
  if g ≠ .null then .error (.assertion 35)
  else if ¬ cpu_count ≥ 1 then .error (.assertion 37)
  else if ¬ cpu_count ≥ 2 then .error (.assertion 39)
  else
    let acc := (List.range cpu_count).foldl Engines.ctorStep ([], [])
    if ¬ acc.1.length > 0 then .error (.assertion 58)
    else if ¬ acc.2.length > 0 then .error (.assertion 59)
    else .ok { cpu_count_ := cpu_count
               engines_ := acc.1
               engines_execution_ := acc.2
               _non_isolate_ticks := 0
               proc_mgr_ := { processes := [] } }

/-- The query `engines_count` (engines.h:91). -/
def Engines.engines_count (e : Engines) : Nat := e.engines_.length

/-- The query `execution_engines_count` (engines.h:95). -/
def Engines.execution_engines_count (e : Engines) : Nat := e.engines_execution_.length

/-- The query `execution_engine (index)` (engines.h:99-105); the result is the
pointer (index in `engines_`) of the engine. -/
def Engines.execution_engine (g : GlobalEngines) (e : Engines) (index : Nat) :
    Except Fatal Nat :=
  if g = .null then .error (.assertion 100)
  else if g ≠ .self then .error (.assertion 101)
  else if ¬ index < e.engines_execution_.length then .error (.assertion 102)
  else
    match e.engines_execution_[index]? with
    | none => .error (.assertion 102)
    | some p =>
      match e.engines_[p]? with
      | none => .error (.assertion 103)
      | some _ => .ok p

/-- The query `is_execution_engine (engineid)` (engines.h:107-113). -/
def Engines.is_execution_engine (g : GlobalEngines) (e : Engines) (engineid : Nat) :
    Except Fatal Bool :=
  if g = .null then .error (.assertion 108)
  else if g ≠ .self then .error (.assertion 109)
  else if ¬ engineid < e.engines_.length then .error (.assertion 110)
  else
    match e.engines_[engineid]? with
    | none => .error (.assertion 111)
    | some engine => .ok (EngineType.EXECUTION == engine.type)

/-! ## `Startup` (engines.h:68-89) -/

/-- Modelled from the spec: `InitrdFile` (kernel/initrd.h is absent): the bytes
of a boot-image file; a file that is missing has no bytes. -/
structure InitrdFile where
  data : List Byte
  deriving DecidableEq, Repr

/-- Modelled from the spec: `InitrdFile::IsEmpty`. -/
def InitrdFile.IsEmpty (f : InitrdFile) : Bool := f.data.isEmpty

/-- Modelled from the spec: `InitrdFile::Data`. -/
def InitrdFile.Data (f : InitrdFile) : List Byte := f.data

/-- Modelled from the spec: `InitrdFile::Size`. -/
def InitrdFile.Size (f : InitrdFile) : Nat := f.data.length

/-- Modelled from the spec: the boot image behind `GLOBAL_initrd()`: a lookup
from path to optional bytes. -/
abbrev Initrd := String → Option (List Byte)

/-- Modelled from the spec: `Initrd::Get (path)`; a missing file gives the empty
`InitrdFile`. -/
def Initrd.Get (initrd : Initrd) (path : String) : InitrdFile :=
  match initrd path with
  | none => { data := [] }
  | some b => { data := b }

/-- Apply `f` to the element at position `i`, when there is one. -/
def updateAt {α : Type} (l : List α) (i : Nat) (f : α → α) : List α :=
  match l[i]? with
  | none => l
  | some a => l.set i (f a)

/-- The thread a handle refers to, looked up in the engines of the registry. -/
def Engines.thread? (e : Engines) (r : ThreadRef) : Option EngineThread :=
  match e.engines_[r.engine]? with
  | none => none
  | some engine => engine.threads.threads[r.index]?

/-- `Engines::Startup` (engines.h:68-89).  A fatal outcome carries the state of
the registry at the moment the system stops. -/
def Engines.Startup (initrd : Initrd) (e : Engines) : Except (Fatal × Engines) Engines :=
  -- ResourceHandle<Process> p = process_manager().CreateProcess();
  let created := e.proc_mgr_.CreateProcess
  let p := created.2
  let e := { e with proc_mgr_ := created.1 }
  if ¬ e.engines_execution_.length > 0 then .error (.assertion 71, e)
  else
    match e.engines_execution_[0]? with
    | none => .error (.assertion 71, e)
    | some first_engine =>
      match e.engines_[first_engine]? with
      | none => .error (.assertion 73, e)
      | some engine =>
        -- ResourceHandle<EngineThread> st = first_engine->threads().Create();
        let made := engine.threads.Create
        let st : ThreadRef := { engine := first_engine, index := made.2 }
        let e := { e with engines_ := e.engines_.set first_engine { engine with threads := made.1 } }
        -- p.get()->SetThread(st, 0);
        let e := { e with proc_mgr_ :=
          { processes := updateAt e.proc_mgr_.processes p (fun q => q.SetThread st 0) } }
        let startup_file := Initrd.Get initrd "/system/startup.js"
        if startup_file.IsEmpty then .error (.abort, e)
        else
          let data := TransportData.EMPTY.SetString startup_file.Data startup_file.Size
          let msg : ThreadMessage := { type := .EVALUATE, sender := none, data := data }
          -- st.get()->PushMessage(std::move(msg));
          .ok { e with engines_ := updateAt e.engines_ st.engine (fun en =>
                  { en with threads :=
                    { threads := updateAt en.threads.threads st.index
                        (fun t => t.PushMessage msg) } }) }

/-! ## Timer ticks and the non-isolate sleep (engines.h:124-188) -/

/-- `Engines::cpu_engine` (engines.h:124-132) on the core with id `cpuid`; the
result is the pointer (index in `engines_`) of that core's engine. -/
def Engines.cpu_engine (g : GlobalEngines) (cpuid : Nat) (e : Engines) : Except Fatal Nat :=
  if g = .null then .error (.assertion 126)
  else if g ≠ .self then .error (.assertion 127)
  else if ¬ cpuid < e.cpu_count_ then .error (.assertion 128)
  else if ¬ cpuid < e.engines_.length then .error (.assertion 129)
  else
    match e.engines_[cpuid]? with
    | none => .error (.assertion 130)
    | some _ => .ok cpuid

/-- `Engines::MsPerTick` (engines.h:138-140). -/
def Engines.MsPerTick : Nat := 10

/-- The statement `++_non_isolate_ticks` on the `uint64_t` counter. -/
def tickCounter (ticks : Nat) : Nat := (ticks + 1) % 2 ^ 64

/-- `Engines::NonIsolateTick` (engines.h:153-157). -/
def Engines.NonIsolateTick (g : GlobalEngines) (e : Engines) : Except Fatal Engines :=
  if g = .null then .error (.assertion 154)
  else if g ≠ .self then .error (.assertion 155)
  else .ok { e with _non_isolate_ticks := tickCounter e._non_isolate_ticks }

/-- What a timer tick handed on: `Engine::TimerTick` (kernel/engine.h is absent)
is a `const` member that passes the tick to the engine's Isolate; the call is
recorded with the pointer of the engine it was made on. -/
inductive TickEvent where
  | EngineTimerTick (engine : Nat)
  deriving DecidableEq, Repr

/-- `Engines::TimerTick` (engines.h:142-149) on the core with id `cpuid`: the
registry afterwards and the calls of `Engine::TimerTick` made. -/
def Engines.TimerTick (g : GlobalEngines) (cpuid : Nat) (e : Engines) :
    Except Fatal (Engines × List TickEvent) :=
  match e.cpu_engine g cpuid with
  | .error f => .error f
  | .ok cpuengine =>
    match e.engines_[cpuengine]? with
    | none => .error (.assertion 130)
    | some engine =>
      if engine.is_init then .ok (e, [.EngineTimerTick cpuengine])
      else
        match e.NonIsolateTick g with
        | .error f => .error f
        | .ok e1 => .ok (e1, [])

/-- How a call of `NonIsolateSleep` came back. -/
inductive SleepOutcome where
  /-- The early return of line 162. -/
  | immediate
  /-- The `break` of line 184, after `reads` executions of the read of line 180,
  the last of which saw the counter at `ticks`. -/
  | woke (reads : Nat) (ticks : Nat)
  deriving DecidableEq, Repr

/-- The loop of `NonIsolateSleep` (engines.h:178-187).  The counter is volatile
and moves only by `NonIsolateTick` in interrupt context: `irq i` is the number
of such ticks that arrive between read number `i` and read number `i + 1` of the
counter (read 0 is the one of line 175).  `i` reads of line 180 are done and the
counter stood at `ticks` at the last read.  `none`: still spinning when the fuel
is used up. -/
def Engines.NonIsolateSleep.spin (required_ticks : Nat) (irq : Nat → Nat) :
    Nat → Nat → Nat → Option SleepOutcome
  | 0, _, _ => none
  | fuel + 1, i, ticks =>
    let non_isolate_ticks := tickCounter^[irq i] ticks
    if non_isolate_ticks > required_ticks then some (.woke (i + 1) non_isolate_ticks)
    else Engines.NonIsolateSleep.spin required_ticks irq fuel (i + 1) non_isolate_ticks

/-- `Engines::NonIsolateSleep (ms)` (engines.h:159-188) on the core with id
`cpuid`; `irq` and the fuel are those of the loop. -/
def Engines.NonIsolateSleep (g : GlobalEngines) (cpuid : Nat) (e : Engines) (ms : Nat)
    (irq : Nat → Nat) (fuel : Nat) : Option (Except Fatal SleepOutcome) :=
  if g = .null then some (.error (.assertion 160))
  else if g ≠ .self then some (.error (.assertion 161))
  else if 0 = ms then some (.ok .immediate)
  else if ¬ Engines.MsPerTick > 0 then some (.error (.assertion 163))
  else if ¬ cpuid < e.engines_.length then some (.error (.assertion 166))
  else
    match e.engines_[cpuid]? with
    | none => some (.error (.assertion 166))
    | some engine =>
      if engine.is_init then some (.error (.assertion 167))
      else
        let sleep_ticks := (ms / Engines.MsPerTick) % 2 ^ 32
        let sleep_ticks := if sleep_ticks = 0 then 1 else sleep_ticks
        let required_ticks := (e._non_isolate_ticks + sleep_ticks) % 2 ^ 64
        (Engines.NonIsolateSleep.spin required_ticks irq fuel 0 e._non_isolate_ticks).map .ok

/-- Number of ticks that arrived between read 0 and read `n` of the counter. -/
def elapsedTicks (irq : Nat → Nat) (n : Nat) : Nat :=
  ((List.range n).map irq).sum

/-! ## The thread manager and `Preempt` (thread-manager.cc) -/

/-- Address of a `Thread` object; `0` is `nullptr`. -/
abbrev ThreadPtr := Nat

/-- Address of the saved-state block `_fxstate`, a member of the `Thread` object
of its owner. -/
structure FxState where
  owner : ThreadPtr
  deriving DecidableEq, Repr

/-- The data members of `ThreadManager` that the constructor of
thread-manager.cc:24-30 sets, but for the back pointer `isolate_`. -/
structure ThreadManager where
  current_thread_ : ThreadPtr
  next_thread_id_ : Nat
  current_thread_index_ : Nat
  threads_ : List ThreadPtr
  deriving DecidableEq, Repr

/-- The constructor `ThreadManager::ThreadManager` (thread-manager.cc:24-30). -/
def ThreadManager.new : ThreadManager :=
  { current_thread_ := 0, next_thread_id_ := 2, current_thread_index_ := 0, threads_ := [] }

/-- Modelled from the spec: `ThreadManager::SwitchToNextThread` (thread-manager.h
is absent) advances the current index cyclically over the managed set, makes the
thread found there the current one and returns it; an empty set is an invariant
violation, which is fatal. -/
def ThreadManager.SwitchToNextThread (tm : ThreadManager) :
    Except Fatal (ThreadPtr × ThreadManager) :=
  let index := (tm.current_thread_index_ + 1) % tm.threads_.length
  match tm.threads_[index]? with
  | none => .error .abort
  | some t => .ok (t, { tm with current_thread_index_ := index, current_thread_ := t })

/-- Modelled from the spec: the part of `Isolate` (kernel/isolate.h is absent)
that `Preempt` uses: its thread manager and the threads that arrived and are
pending absorption. -/
structure Isolate where
  thread_manager_ : ThreadManager
  new_threads_ : List ThreadPtr
  deriving DecidableEq, Repr

/-- Modelled from the spec: `Isolate::current_thread`, the current thread of the
isolate's thread manager. -/
def Isolate.current_thread (isolate : Isolate) : ThreadPtr :=
  isolate.thread_manager_.current_thread_

/-- Modelled from the spec: `Isolate::ProcessNewThreads` drains the pending
threads into the schedulable set of the thread manager. -/
def Isolate.ProcessNewThreads (isolate : Isolate) : Isolate :=
  { thread_manager_ :=
      { isolate.thread_manager_ with
        threads_ := isolate.thread_manager_.threads_ ++ isolate.new_threads_ }
    new_threads_ := [] }

/-- What a call of `Preempt` leaves: the isolate, and the calls of the switch
primitive `preemptStart (current_state, new_state)` it made, in order. -/
structure Preempted where
  isolate : Isolate
  transfers : List (FxState × FxState)
  deriving DecidableEq, Repr

/-- `Preempt (Isolate* isolate)` (thread-manager.cc:43-55); `none` is a null
`isolate`. -/
def Preempt (isolate : Option Isolate) : Except Fatal Preempted :=
  match isolate with
  | none => .error (.assertion 44)
  | some isolate =>
    let curr_thread := isolate.current_thread
    match isolate.thread_manager_.SwitchToNextThread with
    | .error f => .error f
    | .ok (new_thread, tm) =>
      let isolate := { isolate with thread_manager_ := tm }
      let isolate := isolate.ProcessNewThreads
      if curr_thread = new_thread then .ok { isolate := isolate, transfers := [] }
      else .ok { isolate := isolate
                 transfers := [({ owner := curr_thread }, { owner := new_thread })] }

/-! ## The multiboot memory map (multiboot.cc) -/

/-- Physical memory, byte by byte. -/
abbrev Memory := Nat → Byte

/-- A `memcpy` of `n` bytes from address `a` into an unsigned integer
(little endian, as on x86). -/
def readLE (mem : Memory) (a : Nat) : Nat → Nat
  | 0 => 0
  | n + 1 => (mem a).val + 256 * readLE mem (a + 1) n

/-- A `memcpy` into a `uint32_t`. -/
def readU32 (mem : Memory) (a : Nat) : Nat := readLE mem a 4

/-- A `memcpy` into a `uint64_t`. -/
def readU64 (mem : Memory) (a : Nat) : Nat := readLE mem a 8

/-- The sum `address + offsetof (...)` in 64-bit address arithmetic. -/
def fieldAddr (address off : Nat) : Nat := (address + off) % 2 ^ 64

/-- The values of `offsetof` that multiboot.cc uses; `MultibootStruct` and
`MultibootMemoryMapEntry` are declared in multiboot.h, which is absent. -/
structure MultibootLayout where
  mmap_len : Nat
  mmap_addr : Nat
  size : Nat
  base_addr : Nat
  length : Nat
  type : Nat
  deriving DecidableEq, Repr

/-- The data members of `MultibootMemoryMapEnumerator`. -/
structure MultibootMemoryMapEnumerator where
  mmap_start_ : Nat
  mmap_current_ : Nat
  mmap_len_ : Nat
  deriving DecidableEq, Repr

/-- The constructor of `MultibootMemoryMapEnumerator` (multiboot.cc:14-39);
`base_address` is `multiboot->base_address ()` and `w` the width in bits of the
three data members (declared in multiboot.h). -/
def MultibootMemoryMapEnumerator.new (w : Nat) (L : MultibootLayout) (mem : Memory)
    (base_address : Nat) : Except Fatal MultibootMemoryMapEnumerator :=
  let mmap_len := readU32 mem (fieldAddr base_address L.mmap_len)
  let mmap_addr := readU32 mem (fieldAddr base_address L.mmap_addr)
  if 0 = mmap_addr ∨ 0 = mmap_len then .error .fatalError
  else .ok { mmap_start_ := mmap_addr % 2 ^ w
             mmap_current_ := mmap_addr % 2 ^ w
             mmap_len_ := mmap_len % 2 ^ w }

/-- One entry of the firmware memory map: the values of its four fields. -/
structure MapEntry where
  size : Nat
  base_addr : Nat
  length : Nat
  type : Nat
  deriving DecidableEq, Repr

/-- The memory at address `a` reads as the entry `en`. -/
def EntryAt (L : MultibootLayout) (mem : Memory) (a : Nat) (en : MapEntry) : Prop :=
  readU32 mem (fieldAddr a L.size) = en.size ∧
  readU64 mem (fieldAddr a L.base_addr) = en.base_addr ∧
  readU64 mem (fieldAddr a L.length) = en.length ∧
  readU32 mem (fieldAddr a L.type) = en.type

/-- The entries `ens` lie back to back from address `a`, each with a size field
that is not zero and a stride of `size + 4` bytes, and end exactly at `stop`. -/
def LaidOut (L : MultibootLayout) (mem : Memory) : Nat → List MapEntry → Nat → Prop
  | a, [], stop => a = stop
  | a, en :: ens, stop =>
    EntryAt L mem a en ∧ en.size ≠ 0 ∧ LaidOut L mem (a + en.size + 4) ens stop

instance decEntryAt (L : MultibootLayout) (mem : Memory) (a : Nat) (en : MapEntry) :
    Decidable (EntryAt L mem a en) := by
  unfold EntryAt
  infer_instance

instance decLaidOut (L : MultibootLayout) (mem : Memory) :
    ∀ (a : Nat) (ens : List MapEntry) (stop : Nat), Decidable (LaidOut L mem a ens stop)
  | a, [], stop => inferInstanceAs (Decidable (a = stop))
  | a, en :: ens, stop =>
    have := decLaidOut L mem (a + en.size + 4) ens stop
    inferInstanceAs
      (Decidable (EntryAt L mem a en ∧ en.size ≠ 0 ∧ LaidOut L mem (a + en.size + 4) ens stop))

/-- The engine that the constructor builds for core `i`. -/
def engineOfCore (i : Nat) : Engine :=
  if 0 = i then Engine.new .SERVICE
  else { Engine.new .EXECUTION with threads := (Engine.new .EXECUTION).threads.Create.1 }

/-- The registry that the constructor builds for `n ≥ 2` cores. -/
def constructed (n : Nat) : Engines :=
  { cpu_count_ := n
    engines_ := (List.range n).map engineOfCore
    engines_execution_ := List.range' 1 (n - 1)
    _non_isolate_ticks := 0
    proc_mgr_ := { processes := [] } }

/-! ## Values used to state and to instantiate the theorems -/

/-- The message that `Startup` builds from the bytes `b` of the startup program. -/
def startupMessage (b : List Byte) : ThreadMessage :=
  { type := .EVALUATE, sender := none, data := .STRING b }

/-- The registry `constructed n` once `Startup` has created the process and the
thread and has bound the thread at slot 0; `box` is the mailbox of the thread. -/
def started (n : Nat) (box : List ThreadMessage) : Engines :=
  { cpu_count_ := n
    engines_ := ((List.range n).map engineOfCore).set 1
      { type := .EXECUTION, is_init := false
        threads := { threads := [{ mailbox := [] }, { mailbox := box }] } }
    engines_execution_ := List.range' 1 (n - 1)
    _non_isolate_ticks := 0
    proc_mgr_ := { processes := [{ threads := [(0, { engine := 1, index := 1 })] }] } }

/-- A registry of two cores whose execution engine has been initialized. -/
def liveRegistry : Engines :=
  { constructed 2 with
    engines_ := [engineOfCore 0, { engineOfCore 1 with is_init := true }] }

/-- An isolate whose thread manager holds the threads at addresses 16 and 32, the
first being current, with the thread at address 48 pending absorption. -/
def sampleIsolate : Isolate :=
  { thread_manager_ :=
      { current_thread_ := 16, next_thread_id_ := 4, current_thread_index_ := 0,
        threads_ := [16, 32] }
    new_threads_ := [48] }

/-- The outcome of the last of `k + 1` successive calls of `SwitchToNextThread`. -/
def ThreadManager.switchTimes : Nat → ThreadManager → Except Fatal (ThreadPtr × ThreadManager)
  | 0, tm => tm.SwitchToNextThread
  | k + 1, tm =>
    match tm.SwitchToNextThread with
    | .error f => .error f
    | .ok (_, tm1) => ThreadManager.switchTimes k tm1

/-- An isolate whose thread manager holds the idle thread at address 16 alone,
which is current. -/
def idleIsolate : Isolate :=
  { thread_manager_ :=
      { current_thread_ := 16, next_thread_id_ := 3, current_thread_index_ := 0,
        threads_ := [16] }
    new_threads_ := [] }

theorem ctor_fold (n : Nat) :
    (List.range n).foldl Engines.ctorStep ([], []) =
      ((List.range n).map engineOfCore, List.range' 1 (n - 1)) := by
  induction n with
  | zero => rfl
  | succ n ih =>
    rw [List.range_succ, List.foldl_append, ih]
    cases n with
    | zero => rfl
    | succ m =>
      simp only [List.foldl_cons, List.foldl_nil, Engines.ctorStep, List.map_append,
        List.map_cons, List.map_nil, engineOfCore, List.length_map, List.length_range]
      have h0 : ¬ (0 = m + 1) := by omega
      simp only [h0, if_false, Nat.add_sub_cancel]
      rw [List.range'_concat]
      simp [Nat.add_comm]

theorem new_ok (n : Nat) (h : 2 ≤ n) :
    Engines.new .null n = .ok (constructed n) := by
  unfold Engines.new constructed
  rw [ctor_fold]
  have h1 : n ≥ 1 := by omega
  have h3 : 0 < n - 1 := by omega
  have h4 : 0 < n := by omega
  simp [h, h1, h3, h4]

theorem engineOfCore_type (i : Nat) :
    (engineOfCore i).type = if i = 0 then EngineType.SERVICE else EngineType.EXECUTION := by
  unfold engineOfCore
  by_cases h : i = 0
  · subst h; rfl
  · have h0 : ¬ (0 = i) := fun h1 => h h1.symm
    simp [h, h0, Engine.new]

theorem engineOfCore_threads (i : Nat) :
    (engineOfCore i).threads.threads = if i = 0 then [] else [{ mailbox := [] }] := by
  unfold engineOfCore
  by_cases h : i = 0
  · subst h; rfl
  · have h0 : ¬ (0 = i) := fun h1 => h h1.symm
    simp [h, h0, Engine.new, EngineThreads.Create]

theorem engineOfCore_is_init (i : Nat) : (engineOfCore i).is_init = false := by
  unfold engineOfCore
  by_cases h : 0 = i <;> simp [h, Engine.new]

theorem range_map_getElem_some (f : Nat → Engine) (n i : Nat) (h : i < n) :
    ((List.range n).map f)[i]? = some (f i) := by
  simp [List.getElem?_map, List.getElem?_range h]

/-- C1: construction of the registry is fatal (a failed assertion) for every
`cpu_count < 2`; for every `cpu_count ≥ 2` (no registry being installed yet) it
succeeds with exactly `cpu_count` engines, the engine of core `i` being SERVICE
exactly when `i = 0` and EXECUTION exactly when `i ≠ 0`; the execution list
holds the pointers of the engines of cores `1 .. cpu_count - 1` in core order,
`execution_engine k` is the engine of core `k + 1`, and
`is_execution_engine id` is true exactly when `id ≠ 0`. -/
theorem C1_registry_construction (g : GlobalEngines) (cpu_count : Nat) :
    (cpu_count < 2 → ∃ line, Engines.new g cpu_count = .error (.assertion line)) ∧
    (2 ≤ cpu_count → ∃ e, Engines.new .null cpu_count = .ok e ∧
      e.engines_count = cpu_count ∧
      (∀ i, i < cpu_count → ∃ en, e.engines_[i]? = some en ∧
        (en.type = .SERVICE ↔ i = 0) ∧ (en.type = .EXECUTION ↔ i ≠ 0)) ∧
      e.engines_execution_ = List.range' 1 (cpu_count - 1) ∧
      e.execution_engines_count = cpu_count - 1 ∧
      (∀ k, k < cpu_count - 1 → e.execution_engine .self k = .ok (k + 1)) ∧
      (∀ id, id < cpu_count → e.is_execution_engine .self id = .ok (decide (id ≠ 0)))) := by
  refine ⟨fun h => ?_, fun h => ?_⟩
  · unfold Engines.new
    by_cases hg : g = .null
    · by_cases h1 : cpu_count ≥ 1
      · have h2 : ¬ cpu_count ≥ 2 := by omega
        exact ⟨39, by simp [hg, h1, h2]⟩
      · exact ⟨37, by simp [hg, h1]⟩
    · exact ⟨35, by simp [hg]⟩
  · refine ⟨_, new_ok cpu_count h, ?_, ?_, rfl, ?_, ?_, ?_⟩
    · simp [Engines.engines_count, constructed]
    · intro i hi
      refine ⟨engineOfCore i, range_map_getElem_some _ _ _ hi, ?_, ?_⟩
      · rw [engineOfCore_type]; by_cases h0 : i = 0 <;> simp [h0]
      · rw [engineOfCore_type]; by_cases h0 : i = 0 <;> simp [h0]
    · simp [Engines.execution_engines_count, constructed]
    · intro k hk
      have hk1 : k + 1 < cpu_count := by omega
      have hget : (List.range' 1 (cpu_count - 1))[k]? = some (k + 1) := by
        rw [List.getElem?_range' _ _ hk]; simp [Nat.add_comm]
      simp only [Engines.execution_engine, constructed, List.length_range', hk, hget,
        range_map_getElem_some _ _ _ hk1]
      simp
    · intro id hid
      simp only [Engines.is_execution_engine, constructed, List.length_map, List.length_range, hid,
        range_map_getElem_some _ _ _ hid, engineOfCore_type]
      by_cases h0 : id = 0 <;> simp [h0]

/-- Witness of C1 at one core and at three cores. -/
theorem C1_registry_construction_witness :
    (∃ line, Engines.new .null 1 = .error (.assertion line)) ∧
    (∃ e, Engines.new .null 3 = .ok e ∧
      e.engines_count = 3 ∧
      (∀ i, i < 3 → ∃ en, e.engines_[i]? = some en ∧
        (en.type = .SERVICE ↔ i = 0) ∧ (en.type = .EXECUTION ↔ i ≠ 0)) ∧
      e.engines_execution_ = List.range' 1 (3 - 1) ∧
      e.execution_engines_count = 3 - 1 ∧
      (∀ k, k < 3 - 1 → e.execution_engine .self k = .ok (k + 1)) ∧
      (∀ id, id < 3 → e.is_execution_engine .self id = .ok (decide (id ≠ 0)))) :=
  ⟨(C1_registry_construction .null 1).1 (by decide),
   (C1_registry_construction .null 3).2 (by decide)⟩

/-! ## Theorems: the boot sequence -/

theorem startup_ok (n : Nat) (h : 2 ≤ n) (initrd : Initrd) (b : List Byte)
    (hget : initrd "/system/startup.js" = some b) (hb : b ≠ []) :
    (constructed n).Startup initrd = .ok (started n [startupMessage b]) := by
  have h3 : 0 < n - 1 := by omega
  have h1 : 1 < n := by omega
  have hx : (List.range' 1 (n - 1))[0]? = some 1 := by
    rw [List.getElem?_range' _ _ h3]
  have he : ((List.range n).map engineOfCore)[1]? = some (engineOfCore 1) :=
    range_map_getElem_some _ _ _ h1
  simp only [Engines.Startup, constructed, ProcessManager.CreateProcess, List.length_range',
    h3, hx, he, Initrd.Get, hget, InitrdFile.IsEmpty]
  simp [hb, updateAt, started, startupMessage, engineOfCore, Engine.new, EngineThreads.Create,
    Process.SetThread, h1, TransportData.SetString, InitrdFile.Data, InitrdFile.Size,
    EngineThread.PushMessage]

theorem startup_abort (n : Nat) (h : 2 ≤ n) (initrd : Initrd)
    (hget : initrd "/system/startup.js" = none ∨ initrd "/system/startup.js" = some []) :
    (constructed n).Startup initrd = .error (.abort, started n []) := by
  have h3 : 0 < n - 1 := by omega
  have h1 : 1 < n := by omega
  have hx : (List.range' 1 (n - 1))[0]? = some 1 := by
    rw [List.getElem?_range' _ _ h3]
  have he : ((List.range n).map engineOfCore)[1]? = some (engineOfCore 1) :=
    range_map_getElem_some _ _ _ h1
  have hempty : (Initrd.Get initrd "/system/startup.js").IsEmpty = true := by
    rcases hget with hg | hg <;> simp [Initrd.Get, hg, InitrdFile.IsEmpty]
  simp only [Engines.Startup, constructed, ProcessManager.CreateProcess, List.length_range',
    h3, hx, he, hempty]
  simp [updateAt, started, engineOfCore, Engine.new, EngineThreads.Create,
    Process.SetThread]

theorem started_engines_ne (n : Nat) (box : List ThreadMessage) (i : Nat) (hi : i ≠ 1) :
    (started n box).engines_[i]? = (constructed n).engines_[i]? := by
  simp only [started, constructed]
  rw [List.getElem?_set_ne (Ne.symm hi)]

theorem started_engines_one (n : Nat) (h : 2 ≤ n) (box : List ThreadMessage) :
    (started n box).engines_[1]? = some
      { type := .EXECUTION, is_init := false
        threads := { threads := [{ mailbox := [] }, { mailbox := box }] } } := by
  simp only [started]
  rw [List.getElem?_set_self (by simp; omega)]

theorem started_thread (n : Nat) (h : 2 ≤ n) (box : List ThreadMessage) (r : ThreadRef)
    (t : EngineThread) (ht : (started n box).thread? r = some t) :
    t.mailbox = [] ∨ (r = { engine := 1, index := 1 } ∧ t.mailbox = box) := by
  unfold Engines.thread? at ht
  by_cases h1 : r.engine = 1
  · rw [h1, started_engines_one n h box] at ht
    simp only at ht
    rcases r with ⟨re, ri⟩
    simp only at h1
    subst h1
    match ri, ht with
    | 0, ht => left; simp at ht; rw [← ht]
    | 1, ht => right; simp at ht; rw [← ht]; exact ⟨rfl, rfl⟩
    | k + 2, ht => simp at ht
  · rw [started_engines_ne n box _ h1] at ht
    left
    simp only [constructed] at ht
    by_cases hlt : r.engine < n
    · rw [range_map_getElem_some _ _ _ hlt] at ht
      simp only at ht
      have hmem := List.getElem?_mem ht
      rw [engineOfCore_threads] at hmem
      by_cases h0 : r.engine = 0
      · simp [h0] at hmem
      · simp [h0] at hmem; rw [hmem]
    · have hnone : ((List.range n).map engineOfCore)[r.engine]? = none := by
        apply List.getElem?_eq_none; simp; omega
      rw [hnone] at ht
      simp at ht

theorem startup_ok_inv (n : Nat) (h : 2 ≤ n) (initrd : Initrd) (e1 : Engines)
    (hok : (constructed n).Startup initrd = .ok e1) :
    ∃ b, e1 = started n [startupMessage b] := by
  cases hget : initrd "/system/startup.js" with
  | none =>
    rw [startup_abort n h initrd (Or.inl hget)] at hok
    cases hok
  | some b =>
    by_cases hb : b = []
    · subst hb
      rw [startup_abort n h initrd (Or.inr hget)] at hok
      cases hok
    · rw [startup_ok n h initrd b hget hb] at hok
      exact ⟨b, (Except.ok.inj hok).symm⟩

/-- C7: for every `cpu_count ≥ 2`, when construction of the registry finishes,
the thread set of every EXECUTION engine holds exactly one thread (the idle
thread, with an empty mailbox) and that of the SERVICE engine holds none; so
the thread that a successful `Startup` then creates on the first execution
engine is the second of that engine, behind the idle thread. -/
theorem C7_idle_thread_per_execution_engine (cpu_count : Nat) (h : 2 ≤ cpu_count) :
    ∃ e, Engines.new .null cpu_count = .ok e ∧
      (∀ (i : Nat) (en : Engine), e.engines_[i]? = some en →
        (en.type = .EXECUTION → en.threads.threads = [{ mailbox := [] }]) ∧
        (en.type = .SERVICE → en.threads.threads = [])) ∧
      (∀ i, i < cpu_count → ∃ en, e.engines_[i]? = some en ∧
        en.threads.threads.length = if i = 0 then 0 else 1) ∧
      (∀ (initrd : Initrd) (e1 : Engines), e.Startup initrd = .ok e1 →
        ∃ en1 st, e1.engines_[1]? = some en1 ∧
          en1.threads.threads = [{ mailbox := [] }, st]) := by
  refine ⟨_, new_ok cpu_count h, ?_, ?_, ?_⟩
  · intro i en hen
    simp only [constructed] at hen
    have hi : i < cpu_count := by
      have := List.getElem?_eq_some_iff.mp hen
      obtain ⟨hlt, _⟩ := this
      simpa using hlt
    rw [range_map_getElem_some _ _ _ hi] at hen
    have hen1 : engineOfCore i = en := Option.some.inj hen
    subst hen1
    rw [engineOfCore_type, engineOfCore_threads]
    by_cases h0 : i = 0 <;> simp [h0]
  · intro i hi
    refine ⟨engineOfCore i, range_map_getElem_some _ _ _ hi, ?_⟩
    rw [engineOfCore_threads]
    by_cases h0 : i = 0 <;> simp [h0]
  · intro initrd e1 hok
    obtain ⟨b, rfl⟩ := startup_ok_inv cpu_count h initrd e1 hok
    exact ⟨_, _, started_engines_one cpu_count h _, rfl⟩

/-- Witness of C7 on a machine with four cores. -/
theorem C7_idle_thread_per_execution_engine_witness :
    ∃ e, Engines.new .null 4 = .ok e ∧
      (∀ (i : Nat) (en : Engine), e.engines_[i]? = some en →
        (en.type = .EXECUTION → en.threads.threads = [{ mailbox := [] }]) ∧
        (en.type = .SERVICE → en.threads.threads = [])) ∧
      (∀ i, i < 4 → ∃ en, e.engines_[i]? = some en ∧
        en.threads.threads.length = if i = 0 then 0 else 1) ∧
      (∀ (initrd : Initrd) (e1 : Engines), e.Startup initrd = .ok e1 →
        ∃ en1 st, e1.engines_[1]? = some en1 ∧
          en1.threads.threads = [{ mailbox := [] }, st]) :=
  C7_idle_thread_per_execution_engine 4 (by decide)

/-- C5: on the registry constructed for `cpu_count ≥ 2` cores, with a boot image
that holds the non-empty bytes `b` at `/system/startup.js`, `Startup` succeeds;
the process manager, empty before, then holds exactly one process, whose only
binding is slot 0; exactly one thread is added, at the end of the thread set of
the first execution engine (execution index 0, the engine of core 1), every
other engine being untouched; slot 0 is bound to that thread; the mailbox of
that thread holds exactly one message, of type EVALUATE, with the empty handle
as reply target and the bytes `b` as payload; every other mailbox is empty. -/
theorem C5_startup_enqueues_program (cpu_count : Nat) (h : 2 ≤ cpu_count) (initrd : Initrd)
    (b : List Byte) (hget : initrd "/system/startup.js" = some b) (hb : b ≠ []) :
    ∃ e e1, Engines.new .null cpu_count = .ok e ∧ e.Startup initrd = .ok e1 ∧
      e.proc_mgr_.processes = [] ∧
      (∃ p, e1.proc_mgr_.processes = [p] ∧
        p.threads = [(0, { engine := 1, index := 1 })] ∧
        p.GetThread 0 = some { engine := 1, index := 1 }) ∧
      e.execution_engine .self 0 = .ok 1 ∧
      (∀ i : Nat, i ≠ 1 → e1.engines_[i]? = e.engines_[i]?) ∧
      (∃ en en1, e.engines_[1]? = some en ∧ e1.engines_[1]? = some en1 ∧
        en1.type = .EXECUTION ∧ en1.type = en.type ∧ en1.is_init = en.is_init ∧
        en1.threads.threads = en.threads.threads ++
          [{ mailbox := [{ type := .EVALUATE, sender := none, data := .STRING b }] }]) ∧
      e1.thread? { engine := 1, index := 1 } =
        some { mailbox := [{ type := .EVALUATE, sender := none, data := .STRING b }] } ∧
      (∀ (r : ThreadRef) (t : EngineThread), e1.thread? r = some t →
        r ≠ { engine := 1, index := 1 } → t.mailbox = []) := by
  have h1 : 1 < cpu_count := by omega
  have hone : (constructed cpu_count).engines_[1]? = some (engineOfCore 1) :=
    range_map_getElem_some _ _ _ h1
  refine ⟨constructed cpu_count, started cpu_count [startupMessage b], new_ok cpu_count h,
    startup_ok cpu_count h initrd b hget hb, rfl, ?_, ?_, ?_, ?_, ?_, ?_⟩
  · exact ⟨_, rfl, rfl, rfl⟩
  · have hk : 0 < cpu_count - 1 := by omega
    have hx : (List.range' 1 (cpu_count - 1))[0]? = some 1 := by
      rw [List.getElem?_range' _ _ hk]
    have he : ((List.range cpu_count).map engineOfCore)[1]? = some (engineOfCore 1) := hone
    simp only [Engines.execution_engine, constructed, List.length_range', hk, hx, he]
    simp
  · intro i hi
    exact started_engines_ne _ _ i hi
  · refine ⟨_, _, hone, started_engines_one cpu_count h _, rfl, rfl, rfl, rfl⟩
  · unfold Engines.thread?
    rw [started_engines_one cpu_count h]
    rfl
  · intro r t ht hr
    rcases started_thread cpu_count h _ r t ht with h0 | ⟨h2, _⟩
    · exact h0
    · exact absurd h2 hr

/-- Witness of C5: two cores and a startup program of two bytes. -/
theorem C5_startup_enqueues_program_witness :
    ∃ e e1, Engines.new .null 2 = .ok e ∧
      e.Startup (fun _ => some [(104 : Byte), 105]) = .ok e1 ∧
      e.proc_mgr_.processes = [] ∧
      (∃ p, e1.proc_mgr_.processes = [p] ∧
        p.threads = [(0, { engine := 1, index := 1 })] ∧
        p.GetThread 0 = some { engine := 1, index := 1 }) ∧
      e.execution_engine .self 0 = .ok 1 ∧
      (∀ i : Nat, i ≠ 1 → e1.engines_[i]? = e.engines_[i]?) ∧
      (∃ en en1, e.engines_[1]? = some en ∧ e1.engines_[1]? = some en1 ∧
        en1.type = .EXECUTION ∧ en1.type = en.type ∧ en1.is_init = en.is_init ∧
        en1.threads.threads = en.threads.threads ++
          [{ mailbox := [{ type := .EVALUATE, sender := none,
                           data := .STRING [(104 : Byte), 105] }] }]) ∧
      e1.thread? { engine := 1, index := 1 } =
        some { mailbox := [{ type := .EVALUATE, sender := none,
                             data := .STRING [(104 : Byte), 105] }] } ∧
      (∀ (r : ThreadRef) (t : EngineThread), e1.thread? r = some t →
        r ≠ { engine := 1, index := 1 } → t.mailbox = []) :=
  C5_startup_enqueues_program 2 (by decide) (fun _ => some [(104 : Byte), 105])
    [(104 : Byte), 105] rfl (by decide)

/-- C6: on the registry constructed for `cpu_count ≥ 2` cores, when the boot
image has no file or an empty file at `/system/startup.js`, `Startup` stops the
system by `abort ()`, and in the state of the registry at that moment the
mailbox of every thread is empty: no message has been pushed. -/
theorem C6_startup_aborts_without_program (cpu_count : Nat) (h : 2 ≤ cpu_count)
    (initrd : Initrd)
    (hget : initrd "/system/startup.js" = none ∨ initrd "/system/startup.js" = some []) :
    ∃ e e1, Engines.new .null cpu_count = .ok e ∧
      e.Startup initrd = .error (.abort, e1) ∧
      (∀ (r : ThreadRef) (t : EngineThread), e1.thread? r = some t → t.mailbox = []) := by
  refine ⟨constructed cpu_count, started cpu_count [], new_ok cpu_count h,
    startup_abort cpu_count h initrd hget, ?_⟩
  intro r t ht
  rcases started_thread cpu_count h _ r t ht with h0 | ⟨_, h2⟩
  · exact h0
  · exact h2

/-- Witness of C6: two cores and a boot image without any file. -/
theorem C6_startup_aborts_without_program_witness :
    ∃ e e1, Engines.new .null 2 = .ok e ∧
      e.Startup (fun _ => none) = .error (.abort, e1) ∧
      (∀ (r : ThreadRef) (t : EngineThread), e1.thread? r = some t → t.mailbox = []) :=
  C6_startup_aborts_without_program 2 (by decide) (fun _ => none) (Or.inl rfl)

/-! ## Theorems: timer ticks and the non-isolate sleep -/

/-- C3: when `TimerTick` runs on core `cpuid` and the lookup of that core's
engine succeeds: if the engine is initialized, exactly one call of
`Engine::TimerTick` is made, on that engine, and the registry (so the
non-isolate tick counter) is unchanged; if it is not, no call of
`Engine::TimerTick` is made and the registry changes in the counter alone, which
is incremented by 1 as a `uint64_t` (by exactly 1 unless it stood at
`2 ^ 64 - 1`), as `NonIsolateTick` does. -/
theorem C3_timer_tick_routing (g : GlobalEngines) (cpuid : Nat) (e : Engines) (p : Nat)
    (engine : Engine) (hcpu : e.cpu_engine g cpuid = .ok p)
    (hengine : e.engines_[p]? = some engine) :
    p = cpuid ∧
    (engine.is_init = true →
      e.TimerTick g cpuid = .ok (e, [.EngineTimerTick cpuid])) ∧
    (engine.is_init = false →
      e.TimerTick g cpuid =
        .ok ({ e with _non_isolate_ticks := (e._non_isolate_ticks + 1) % 2 ^ 64 }, []) ∧
      e.NonIsolateTick g =
        .ok { e with _non_isolate_ticks := (e._non_isolate_ticks + 1) % 2 ^ 64 } ∧
      (e._non_isolate_ticks + 1 < 2 ^ 64 →
        (e._non_isolate_ticks + 1) % 2 ^ 64 = e._non_isolate_ticks + 1)) := by
  have hg : g = .self ∧ p = cpuid := by
    unfold Engines.cpu_engine at hcpu
    by_cases h1 : g = .null
    · simp [h1] at hcpu
    · by_cases h2 : g = .self
      · refine ⟨h2, ?_⟩
        simp only [h1, h2, if_false, ne_eq, not_true_eq_false] at hcpu
        split at hcpu
        · cases hcpu
        · split at hcpu
          · cases hcpu
          · split at hcpu
            · cases hcpu
            · split at hcpu
              · cases hcpu
              · exact (Except.ok.inj hcpu).symm
      · simp [h1, h2] at hcpu
  obtain ⟨hg, hp⟩ := hg
  subst hp
  subst hg
  refine ⟨rfl, ?_, ?_⟩
  · intro hinit
    simp [Engines.TimerTick, hcpu, hengine, hinit]
  · intro hinit
    refine ⟨?_, ?_, fun hlt => Nat.mod_eq_of_lt hlt⟩
    · simp [Engines.TimerTick, hcpu, hengine, hinit, Engines.NonIsolateTick, tickCounter]
    · simp [Engines.NonIsolateTick, tickCounter]

/-- Witness of C3: a tick on core 1 of the freshly constructed registry of two
cores, whose engine is not initialized. -/
theorem C3_timer_tick_routing_witness :
    1 = 1 ∧
    ((engineOfCore 1).is_init = true →
      (constructed 2).TimerTick .self 1 = .ok (constructed 2, [.EngineTimerTick 1])) ∧
    ((engineOfCore 1).is_init = false →
      (constructed 2).TimerTick .self 1 =
        .ok ({ constructed 2 with
                _non_isolate_ticks := ((constructed 2)._non_isolate_ticks + 1) % 2 ^ 64 }, []) ∧
      (constructed 2).NonIsolateTick .self =
        .ok { constructed 2 with
                _non_isolate_ticks := ((constructed 2)._non_isolate_ticks + 1) % 2 ^ 64 } ∧
      ((constructed 2)._non_isolate_ticks + 1 < 2 ^ 64 →
        ((constructed 2)._non_isolate_ticks + 1) % 2 ^ 64 =
          (constructed 2)._non_isolate_ticks + 1)) :=
  C3_timer_tick_routing .self 1 (constructed 2) 1 (engineOfCore 1) rfl rfl

/-- Counterexample to C8 as stated: `NonIsolateSleep (0)` on core 1 of a
registry whose engine of core 1 is initialized returns normally, by the early
return of line 162, which comes before the assertion of line 167. -/
theorem C8_counterexample_zero_ms :
    (∃ engine, liveRegistry.engines_[1]? = some engine ∧ engine.is_init = true) ∧
    Engines.NonIsolateSleep .self 1 liveRegistry 0 (fun _ => 0) 3 = some (.ok .immediate) := by
  exact ⟨⟨_, rfl, rfl⟩, rfl⟩

/-- C8, amended: on a core whose engine is initialized, for every `ms ≠ 0`,
`NonIsolateSleep (ms)` is fatal by a failed assertion, whatever the ticks that
arrive and the fuel, and when the registry is the installed one the assertion
that fails is the precondition of line 167; `NonIsolateSleep (0)` on the
installed registry returns at once, by the early return of line 162, before
that precondition is checked. -/
theorem C8_sleep_on_initialized_engine_fatal (g : GlobalEngines) (cpuid : Nat) (e : Engines)
    (ms : Nat) (irq : Nat → Nat) (fuel : Nat) (engine : Engine)
    (hengine : e.engines_[cpuid]? = some engine) (hinit : engine.is_init = true) :
    (ms ≠ 0 →
      (∃ line,
        Engines.NonIsolateSleep g cpuid e ms irq fuel = some (.error (.assertion line))) ∧
      (g = .self →
        Engines.NonIsolateSleep g cpuid e ms irq fuel = some (.error (.assertion 167)))) ∧
    (g = .self →
      Engines.NonIsolateSleep g cpuid e 0 irq fuel = some (.ok .immediate)) := by
  refine ⟨fun hms => ?_, fun hg => ?_⟩
  · have hlt : cpuid < e.engines_.length := (List.getElem?_eq_some_iff.mp hengine).1
    have hms0 : ¬ (0 = ms) := fun h => hms h.symm
    have h167 : g = .self →
        Engines.NonIsolateSleep g cpuid e ms irq fuel = some (.error (.assertion 167)) := by
      intro hg
      subst hg
      simp [Engines.NonIsolateSleep, hms0, Engines.MsPerTick, hlt, hengine, hinit]
    refine ⟨?_, h167⟩
    by_cases h1 : g = .null
    · exact ⟨160, by simp [Engines.NonIsolateSleep, h1]⟩
    · by_cases h2 : g = .self
      · exact ⟨167, h167 h2⟩
      · exact ⟨161, by simp [Engines.NonIsolateSleep, h1, h2]⟩
  · subst hg
    simp [Engines.NonIsolateSleep]

/-- Witness of C8, amended: on the initialized core 1 a sleep of 25 ms is fatal
at line 167 and a sleep of 0 ms returns at once. -/
theorem C8_sleep_on_initialized_engine_fatal_witness :
    ((∃ line, Engines.NonIsolateSleep .self 1 liveRegistry 25 (fun _ => 1) 9 =
        some (.error (.assertion line))) ∧
      (GlobalEngines.self = .self →
        Engines.NonIsolateSleep .self 1 liveRegistry 25 (fun _ => 1) 9 =
          some (.error (.assertion 167)))) ∧
    Engines.NonIsolateSleep .self 1 liveRegistry 0 (fun _ => 1) 9 = some (.ok .immediate) :=
  ⟨(C8_sleep_on_initialized_engine_fatal .self 1 liveRegistry 25 (fun _ => 1) 9
      { engineOfCore 1 with is_init := true } rfl rfl).1 (by decide),
   (C8_sleep_on_initialized_engine_fatal .self 1 liveRegistry 25 (fun _ => 1) 9
      { engineOfCore 1 with is_init := true } rfl rfl).2 rfl⟩

theorem elapsedTicks_succ (irq : Nat → Nat) (n : Nat) :
    elapsedTicks irq (n + 1) = elapsedTicks irq n + irq n := by
  simp [elapsedTicks, List.range_succ]

theorem tickCounter_iterate (k x : Nat) :
    tickCounter^[k] (x % 2 ^ 64) = (x + k) % 2 ^ 64 := by
  induction k generalizing x with
  | zero => rfl
  | succ k ih =>
    rw [Function.iterate_succ_apply]
    have h1 : tickCounter (x % 2 ^ 64) = (x + 1) % 2 ^ 64 := by
      unfold tickCounter
      omega
    rw [h1, ih]
    congr 1
    omega

theorem counter_step (t0 : Nat) (irq : Nat → Nat) (i : Nat) :
    tickCounter^[irq i] ((t0 + elapsedTicks irq i) % 2 ^ 64) =
      (t0 + elapsedTicks irq (i + 1)) % 2 ^ 64 := by
  rw [tickCounter_iterate, Nat.add_assoc, ← elapsedTicks_succ]

theorem spin_not_immediate (R : Nat) (irq : Nat → Nat) (fuel : Nat) :
    ∀ (i t : Nat), Engines.NonIsolateSleep.spin R irq fuel i t ≠ some .immediate := by
  induction fuel with
  | zero => intro i t h; simp [Engines.NonIsolateSleep.spin] at h
  | succ fuel ih =>
    intro i t h
    unfold Engines.NonIsolateSleep.spin at h
    simp only at h
    split at h
    · cases h
    · exact ih _ _ h

theorem spin_sound (R t0 : Nat) (irq : Nat → Nat) (fuel : Nat) :
    ∀ (i n c : Nat),
      Engines.NonIsolateSleep.spin R irq fuel i ((t0 + elapsedTicks irq i) % 2 ^ 64) =
        some (.woke n c) →
      i < n ∧ c = (t0 + elapsedTicks irq n) % 2 ^ 64 ∧ R < c := by
  induction fuel with
  | zero => intro i n c h; simp [Engines.NonIsolateSleep.spin] at h
  | succ fuel ih =>
    intro i n c h
    unfold Engines.NonIsolateSleep.spin at h
    rw [counter_step] at h
    simp only at h
    split at h
    · rename_i hgt
      simp only [Option.some.injEq, SleepOutcome.woke.injEq] at h
      obtain ⟨h1, h2⟩ := h
      subst h1
      subst h2
      exact ⟨Nat.lt_succ_self _, rfl, hgt⟩
    · obtain ⟨h1, h2, h3⟩ := ih (i + 1) n c h
      exact ⟨by omega, h2, h3⟩

theorem spin_complete (R t0 : Nat) (irq : Nat → Nat) (d : Nat) :
    ∀ (i fuel : Nat), d + 1 ≤ fuel → R < (t0 + elapsedTicks irq (i + d + 1)) % 2 ^ 64 →
      ∃ n c, n ≤ i + d + 1 ∧
        Engines.NonIsolateSleep.spin R irq fuel i ((t0 + elapsedTicks irq i) % 2 ^ 64) =
          some (.woke n c) := by
  induction d with
  | zero =>
    intro i fuel hf hR
    obtain ⟨f, rfl⟩ : ∃ f, fuel = f + 1 := ⟨fuel - 1, by omega⟩
    unfold Engines.NonIsolateSleep.spin
    rw [counter_step]
    simp only
    rw [if_pos hR]
    exact ⟨_, _, Nat.le_refl _, rfl⟩
  | succ d ih =>
    intro i fuel hf hR
    obtain ⟨f, rfl⟩ : ∃ f, fuel = f + 1 := ⟨fuel - 1, by omega⟩
    unfold Engines.NonIsolateSleep.spin
    rw [counter_step]
    simp only
    split
    · exact ⟨_, _, by omega, rfl⟩
    · have hR1 : R < (t0 + elapsedTicks irq (i + 1 + d + 1)) % 2 ^ 64 := by
        have : i + 1 + d + 1 = i + (d + 1) + 1 := by omega
        rw [this]; exact hR
      obtain ⟨n, c, hn, hs⟩ := ih (i + 1) f (by omega) hR1
      exact ⟨n, c, by omega, hs⟩

theorem sleep_unfold (cpuid : Nat) (e : Engines) (ms : Nat) (irq : Nat → Nat) (fuel : Nat)
    (engine : Engine) (hms : 0 < ms) (hms32 : ms < 2 ^ 32)
    (hengine : e.engines_[cpuid]? = some engine) (hinit : engine.is_init = false)
    (hnowrap : e._non_isolate_ticks + ms / 10 + 1 < 2 ^ 64) :
    Engines.NonIsolateSleep .self cpuid e ms irq fuel =
      (Engines.NonIsolateSleep.spin (e._non_isolate_ticks + (if ms / 10 = 0 then 1 else ms / 10))
        irq fuel 0 ((e._non_isolate_ticks + elapsedTicks irq 0) % 2 ^ 64)).map .ok := by
  have hlt : cpuid < e.engines_.length := (List.getElem?_eq_some_iff.mp hengine).1
  have hms0 : ¬ (0 = ms) := by omega
  have h1 : ms / 10 % 2 ^ 32 = ms / 10 := Nat.mod_eq_of_lt (by omega)
  have h2 : (e._non_isolate_ticks + (if ms / 10 = 0 then 1 else ms / 10)) % 2 ^ 64 =
      e._non_isolate_ticks + (if ms / 10 = 0 then 1 else ms / 10) := by
    apply Nat.mod_eq_of_lt
    split <;> omega
  have h3 : (e._non_isolate_ticks + elapsedTicks irq 0) % 2 ^ 64 = e._non_isolate_ticks := by
    simp only [elapsedTicks, List.range_zero, List.map_nil, List.sum_nil, Nat.add_zero]
    exact Nat.mod_eq_of_lt (by omega)
  simp only [Engines.NonIsolateSleep, hms0, Engines.MsPerTick, hlt, hengine, hinit, h1, h2, h3]
  simp

/-- C4: `NonIsolateSleep (ms)` with `0 < ms`, called on a core whose engine is
not initialized, at the tick period `MsPerTick () = 10`, the counter being far
enough from `2 ^ 64` for the target not to wrap.  Whenever the call returns,
the number of ticks that arrived since it read the counter at entry is at least
`ceil (ms / 10)` and at least 1, and the counter it saw last is the entry value
advanced by that number.  And the call does return: once the counter stands
above the target at some read, enough fuel makes the loop stop at or before
that read. -/
theorem C4_non_isolate_sleep_lower_bound (cpuid : Nat) (e : Engines) (ms : Nat)
    (irq : Nat → Nat) (engine : Engine) (hms : 0 < ms) (hms32 : ms < 2 ^ 32)
    (hengine : e.engines_[cpuid]? = some engine) (hinit : engine.is_init = false)
    (hnowrap : e._non_isolate_ticks + ms / 10 + 1 < 2 ^ 64) :
    Engines.MsPerTick = 10 ∧
    (∀ fuel n c, Engines.NonIsolateSleep .self cpuid e ms irq fuel = some (.ok (.woke n c)) →
      (ms + 9) / 10 ≤ elapsedTicks irq n ∧ 1 ≤ elapsedTicks irq n ∧
      c = (e._non_isolate_ticks + elapsedTicks irq n) % 2 ^ 64) ∧
    (∀ fuel, Engines.NonIsolateSleep .self cpuid e ms irq fuel ≠ some (.ok .immediate)) ∧
    (∀ m, e._non_isolate_ticks + (if ms / 10 = 0 then 1 else ms / 10) <
        (e._non_isolate_ticks + elapsedTicks irq (m + 1)) % 2 ^ 64 →
      ∀ fuel, m + 1 ≤ fuel → ∃ n c, n ≤ m + 1 ∧
        Engines.NonIsolateSleep .self cpuid e ms irq fuel = some (.ok (.woke n c))) := by
  have hun := fun fuel => sleep_unfold cpuid e ms irq fuel engine hms hms32 hengine hinit hnowrap
  refine ⟨rfl, ?_, ?_, ?_⟩
  · intro fuel n c h
    rw [hun fuel] at h
    cases hs : Engines.NonIsolateSleep.spin
        (e._non_isolate_ticks + (if ms / 10 = 0 then 1 else ms / 10)) irq fuel 0
        ((e._non_isolate_ticks + elapsedTicks irq 0) % 2 ^ 64) with
    | none => rw [hs] at h; simp at h
    | some o =>
      rw [hs] at h
      simp only [Option.map_some', Option.some.injEq, Except.ok.injEq] at h
      subst h
      obtain ⟨_, h2, h3⟩ := spin_sound _ _ irq fuel 0 n c hs
      have h4 : (e._non_isolate_ticks + elapsedTicks irq n) % 2 ^ 64 ≤
          e._non_isolate_ticks + elapsedTicks irq n := Nat.mod_le _ _
      refine ⟨?_, ?_, h2⟩
      · split at h3 <;> omega
      · split at h3 <;> omega
  · intro fuel h
    rw [hun fuel] at h
    cases hs : Engines.NonIsolateSleep.spin
        (e._non_isolate_ticks + (if ms / 10 = 0 then 1 else ms / 10)) irq fuel 0
        ((e._non_isolate_ticks + elapsedTicks irq 0) % 2 ^ 64) with
    | none => rw [hs] at h; simp at h
    | some o =>
      rw [hs] at h
      simp only [Option.map_some', Option.some.injEq, Except.ok.injEq] at h
      subst h
      exact spin_not_immediate _ irq fuel _ _ hs
  · intro m hm fuel hf
    have hm1 : e._non_isolate_ticks + (if ms / 10 = 0 then 1 else ms / 10) <
        (e._non_isolate_ticks + elapsedTicks irq (0 + m + 1)) % 2 ^ 64 := by
      rw [Nat.zero_add]; exact hm
    obtain ⟨n, c, hn, hs⟩ := spin_complete _ _ irq m 0 fuel hf hm1
    refine ⟨n, c, by omega, ?_⟩
    rw [hun fuel, hs]
    rfl

/-- Witness of C4: a sleep of 25 ms on core 1 of the fresh registry of two
cores, one tick arriving before every read: the call returns at the third read,
three ticks after entry. -/
theorem C4_non_isolate_sleep_lower_bound_witness :
    Engines.NonIsolateSleep .self 1 (constructed 2) 25 (fun _ => 1) 5 =
      some (.ok (.woke 3 3)) ∧
    (25 + 9) / 10 ≤ elapsedTicks (fun _ => 1) 3 ∧ 1 ≤ elapsedTicks (fun _ => 1) 3 ∧
    3 = ((constructed 2)._non_isolate_ticks + elapsedTicks (fun _ => 1) 3) % 2 ^ 64 :=
  ⟨rfl, (C4_non_isolate_sleep_lower_bound 1 (constructed 2) 25 (fun _ => 1) (engineOfCore 1)
    (by decide) (by norm_num) rfl rfl (by norm_num [constructed])).2.1 5 3 3 rfl⟩

/-! ## Theorems: `Preempt` -/

theorem preempt_eq (isolate : Isolate) (new_thread : ThreadPtr) (tm : ThreadManager)
    (hsel : isolate.thread_manager_.SwitchToNextThread = .ok (new_thread, tm)) :
    Preempt (some isolate) = .ok
      { isolate := ({ isolate with thread_manager_ := tm } : Isolate).ProcessNewThreads
        transfers := if isolate.current_thread = new_thread then []
          else [({ owner := isolate.current_thread }, { owner := new_thread })] } := by
  by_cases h : isolate.current_thread = new_thread
  · simp only [Preempt, hsel, h, if_true]
  · simp only [Preempt, hsel, h, if_false]

/-- C2: in every isolate state in which `SwitchToNextThread` returns a thread,
`Preempt` returns; it makes no call of `preemptStart` when that thread is the
one that was current on entry, and otherwise exactly one call, from the saved
state of the thread current on entry to the saved state of the selected
thread. -/
theorem C2_preempt_transfer_count (isolate : Isolate) (new_thread : ThreadPtr)
    (tm : ThreadManager)
    (hsel : isolate.thread_manager_.SwitchToNextThread = .ok (new_thread, tm)) :
    ∃ r, Preempt (some isolate) = .ok r ∧
      (new_thread = isolate.current_thread → r.transfers = []) ∧
      (new_thread ≠ isolate.current_thread →
        r.transfers = [({ owner := isolate.current_thread }, { owner := new_thread })]) := by
  refine ⟨_, preempt_eq isolate new_thread tm hsel, fun heq => ?_, fun hne => ?_⟩
  · simp [heq]
  · have h : ¬ isolate.current_thread = new_thread := fun h => hne h.symm
    simp [h]

/-- Witness of C2: the sample isolate switches from the thread at 16 to the
thread at 32 with one transfer; the isolate with the idle thread alone makes no
transfer. -/
theorem C2_preempt_transfer_count_witness :
    (∃ r, Preempt (some sampleIsolate) = .ok r ∧
      (32 = sampleIsolate.current_thread → r.transfers = []) ∧
      (32 ≠ sampleIsolate.current_thread →
        r.transfers = [({ owner := sampleIsolate.current_thread }, { owner := 32 })])) ∧
    (∃ r, Preempt (some idleIsolate) = .ok r ∧
      (16 = idleIsolate.current_thread → r.transfers = []) ∧
      (16 ≠ idleIsolate.current_thread →
        r.transfers = [({ owner := idleIsolate.current_thread }, { owner := 16 })])) :=
  ⟨C2_preempt_transfer_count sampleIsolate 32
    { sampleIsolate.thread_manager_ with current_thread_index_ := 1, current_thread_ := 32 } rfl,
   C2_preempt_transfer_count idleIsolate 16 idleIsolate.thread_manager_ rfl⟩

theorem switch_mem (tm tm1 : ThreadManager) (t : ThreadPtr)
    (h : tm.SwitchToNextThread = .ok (t, tm1)) :
    t ∈ tm.threads_ ∧ tm1.current_thread_ = t ∧ tm1.threads_ = tm.threads_ := by
  unfold ThreadManager.SwitchToNextThread at h
  simp only at h
  split at h
  · cases h
  · rename_i x hx
    have h1 := Except.ok.inj h
    have h2 : x = t := congrArg Prod.fst h1
    have h3 := congrArg Prod.snd h1
    simp only at h3
    subst h2
    subst h3
    exact ⟨List.getElem?_mem hx, rfl, rfl⟩

theorem switch_ok (tm : ThreadManager) (h : tm.threads_ ≠ []) :
    ∃ t tm1, tm.SwitchToNextThread = .ok (t, tm1) := by
  have hpos : 0 < tm.threads_.length := List.length_pos.mpr h
  have hlt : (tm.current_thread_index_ + 1) % tm.threads_.length < tm.threads_.length :=
    Nat.mod_lt _ hpos
  unfold ThreadManager.SwitchToNextThread
  simp only
  rw [List.getElem?_eq_getElem hlt]
  exact ⟨_, _, rfl⟩

theorem switch_eq (tm : ThreadManager) (t : ThreadPtr)
    (h : tm.threads_[(tm.current_thread_index_ + 1) % tm.threads_.length]? = some t) :
    tm.SwitchToNextThread = .ok (t,
      { tm with current_thread_index_ := (tm.current_thread_index_ + 1) % tm.threads_.length
                current_thread_ := t }) := by
  unfold ThreadManager.SwitchToNextThread
  simp only [h]

theorem switchTimes_index (k : Nat) :
    ∀ (tm : ThreadManager) (t : ThreadPtr),
      tm.threads_[(tm.current_thread_index_ + k + 1) % tm.threads_.length]? = some t →
      ∃ tm1, tm.switchTimes k = .ok (t, tm1) := by
  induction k with
  | zero =>
    intro tm t h
    exact ⟨_, switch_eq tm t h⟩
  | succ k ih =>
    intro tm t h
    have hlt : (tm.current_thread_index_ + (k + 1) + 1) % tm.threads_.length <
        tm.threads_.length := (List.getElem?_eq_some_iff.mp h).1
    have hpos : 0 < tm.threads_.length := by omega
    have hlt1 : (tm.current_thread_index_ + 1) % tm.threads_.length < tm.threads_.length :=
      Nat.mod_lt _ hpos
    have hfirst := switch_eq tm _ (List.getElem?_eq_getElem hlt1)
    unfold ThreadManager.switchTimes
    rw [hfirst]
    simp only
    apply ih
    simp only
    have hidx : ((tm.current_thread_index_ + 1) % tm.threads_.length + k + 1) %
        tm.threads_.length =
        (tm.current_thread_index_ + (k + 1) + 1) % tm.threads_.length := by
      rw [Nat.add_assoc, Nat.mod_add_mod]
      congr 1
      omega
    rw [hidx]
    exact h

theorem switchTimes_reaches (tm : ThreadManager) (t : ThreadPtr) (h : t ∈ tm.threads_) :
    ∃ k tm1, tm.switchTimes k = .ok (t, tm1) := by
  obtain ⟨j, hj⟩ := List.getElem?_of_mem h
  have hjlt : j < tm.threads_.length := (List.getElem?_eq_some_iff.mp hj).1
  have hr : tm.current_thread_index_ % tm.threads_.length < tm.threads_.length :=
    Nat.mod_lt _ (by omega)
  have hdiv := Nat.div_add_mod tm.current_thread_index_ tm.threads_.length
  refine ⟨j + (tm.threads_.length - 1 - tm.current_thread_index_ % tm.threads_.length), ?_⟩
  apply switchTimes_index
  have hsum : tm.current_thread_index_ +
      (j + (tm.threads_.length - 1 - tm.current_thread_index_ % tm.threads_.length)) + 1 =
      j + tm.threads_.length * (tm.current_thread_index_ / tm.threads_.length + 1) := by
    rw [Nat.mul_add, Nat.mul_one]
    omega
  rw [hsum, Nat.add_mul_mod_self_left, Nat.mod_eq_of_lt hjlt]
  exact hj

/-- C10: in a call of `Preempt` on an isolate whose schedulable set is not
empty, the thread selected is the one `SwitchToNextThread` returns on the thread
manager as it stands on entry, before the drain: it belongs to the set of that
moment.  A thread `t` that is pending absorption and not in that set is
therefore not the selected thread, is not the current thread when `Preempt` is
done, and is the target of no transfer of this call; the drain, which follows
the selection, puts `t` into the schedulable set and leaves nothing pending, and
some later call of `SwitchToNextThread` on the thread manager that `Preempt`
leaves does select `t`. -/
theorem C10_pending_thread_not_selected (isolate : Isolate) (t : ThreadPtr)
    (hset : isolate.thread_manager_.threads_ ≠ [])
    (hpending : t ∈ isolate.new_threads_)
    (hfresh : t ∉ isolate.thread_manager_.threads_) :
    ∃ new_thread tm r,
      isolate.thread_manager_.SwitchToNextThread = .ok (new_thread, tm) ∧
      Preempt (some isolate) = .ok r ∧
      new_thread ∈ isolate.thread_manager_.threads_ ∧
      new_thread ≠ t ∧
      r.isolate.current_thread = new_thread ∧
      (∀ tr ∈ r.transfers, tr.2 = { owner := new_thread } ∧ tr.2 ≠ { owner := t }) ∧
      r.isolate = ({ isolate with thread_manager_ := tm } : Isolate).ProcessNewThreads ∧
      r.isolate.thread_manager_.threads_ =
        isolate.thread_manager_.threads_ ++ isolate.new_threads_ ∧
      t ∈ r.isolate.thread_manager_.threads_ ∧
      r.isolate.new_threads_ = [] ∧
      (∃ k tmk, r.isolate.thread_manager_.switchTimes k = .ok (t, tmk)) := by
  obtain ⟨new_thread, tm, hsel⟩ := switch_ok isolate.thread_manager_ hset
  obtain ⟨hmem, hcur, hthreads⟩ := switch_mem _ _ _ hsel
  have hne : new_thread ≠ t := fun h => hfresh (h ▸ hmem)
  have hfx : ({ owner := new_thread } : FxState) ≠ { owner := t } := by
    intro h; exact hne (congrArg FxState.owner h)
  refine ⟨new_thread, tm, _, hsel, preempt_eq isolate new_thread tm hsel, hmem, hne,
    ?_, ?_, rfl, ?_, ?_, rfl, ?_⟩
  · simp [Isolate.ProcessNewThreads, Isolate.current_thread, hcur]
  · intro tr htr
    by_cases h : isolate.current_thread = new_thread
    · simp [h] at htr
    · simp only [h, if_false, List.mem_singleton] at htr
      subst htr
      exact ⟨rfl, hfx⟩
  · simp [Isolate.ProcessNewThreads, hthreads]
  · simp [Isolate.ProcessNewThreads, hpending]
  · apply switchTimes_reaches
    simp [Isolate.ProcessNewThreads, hpending]

/-- Witness of C10: in the sample isolate the pending thread at 48 is passed
over, the call switching from 16 to 32. -/
theorem C10_pending_thread_not_selected_witness :
    ∃ new_thread tm r,
      sampleIsolate.thread_manager_.SwitchToNextThread = .ok (new_thread, tm) ∧
      Preempt (some sampleIsolate) = .ok r ∧
      new_thread ∈ sampleIsolate.thread_manager_.threads_ ∧
      new_thread ≠ 48 ∧
      r.isolate.current_thread = new_thread ∧
      (∀ tr ∈ r.transfers, tr.2 = { owner := new_thread } ∧ tr.2 ≠ { owner := 48 }) ∧
      r.isolate = ({ sampleIsolate with thread_manager_ := tm } : Isolate).ProcessNewThreads ∧
      r.isolate.thread_manager_.threads_ =
        sampleIsolate.thread_manager_.threads_ ++ sampleIsolate.new_threads_ ∧
      48 ∈ r.isolate.thread_manager_.threads_ ∧
      r.isolate.new_threads_ = [] ∧
      (∃ k tmk, r.isolate.thread_manager_.switchTimes k = .ok (48, tmk)) :=
  C10_pending_thread_not_selected sampleIsolate 48 (by decide) (by decide) (by decide)

/-! ## Theorems: the multiboot memory map -/

end rt
